import Mathlib

/-!
Shallow embedding of the blockchain-messaging program in `src/index.mjs`.

Conventions of the embedding:
* JS strings and Node `Buffer`s are both modelled as `String` (a `Buffer` is
  identified with the byte-string it carries); `Buffer.from(s, "utf-8").length`
  is `String.utf8ByteSize`.
* The Node `crypto` library is an external collaborator, not code of this
  repository.  Its primitives (`publicEncrypt`, `privateDecrypt`, `sign`,
  SHA-256, base64) are therefore modelled as an explicit record of functions
  (`CryptoLib`) over which the theorems quantify; properties a claim needs of
  a primitive (an OAEP round trip for a matching key pair, collision-freeness
  of the digest) appear as explicit hypotheses.
* `null` is modelled by `Option.none`; a thrown `Error` by `Except.error`.
* Nondeterministic inputs (`new Date().toISOString()`) are passed in as
  explicit `timestamp` arguments.
* The file-system effects of `saveKeyToFile` and `saveTransaction` are
  modelled by the data they write: a list of `(path, contents)` pairs for key
  files, and the parsed contents of `messages.json` (`Option (List
  Transaction)`, `none` when the file does not exist or cannot be parsed).
-/

/-! ### JSON serialization (`JSON.stringify` on the values this program hashes) -/

/-- Escape of a single character inside a JSON string literal, as produced by
`JSON.stringify`. -/
def jsonEscapeChar (c : Char) : String :=
  if c = '"' then "\\\""
  else if c = '\\' then "\\\\"
  else if c = '\x08' then "\\b"
  else if c = '\t' then "\\t"
  else if c = '\n' then "\\n"
  else if c = '\x0c' then "\\f"
  else if c = '\r' then "\\r"
  else if c.toNat < 0x20 then
    "\\u00" ++ String.singleton (Nat.digitChar (c.toNat / 16))
      ++ String.singleton (Nat.digitChar (c.toNat % 16))
  else String.singleton c

/-- A JSON string literal: `JSON.stringify` applied to a string. -/
def jsonStr (s : String) : String :=
  "\"" ++ String.join (s.data.map jsonEscapeChar) ++ "\""

/-- A JSON string-or-null value: `JSON.stringify` applied to a string or `null`. -/
def jsonOptStr : Option String → String
  | none => "null"
  | some s => jsonStr s

/-- JS `"…".toLowerCase()` on the names this program handles (a structurally
recursive rendering of `String.toLower`, so closed instances evaluate). -/
def toLowerStr (s : String) : String :=
  String.mk (s.data.map Char.toLower)

/-! ### Data model: `Block`, `Blockchain` (lines 6-47 of `src/index.mjs`) -/

/-- The object stored as `data` of a message block (`newBlockData`,
lines 109-115 of `src/index.mjs`). -/
structure NewBlockData where
  senderPrivateKey : String
  recipientPublicKey : String
  encryptedMessage : String
  signature : Option String
  decryptedMessage : String
  deriving DecidableEq

/-- The `data` field of a `Block`: either a plain string (the genesis block
stores the string `Genesis Block`) or a `newBlockData` object. -/
inductive BlockData where
  | str : String → BlockData
  | record : NewBlockData → BlockData
  deriving DecidableEq

/-- `JSON.stringify` on a `BlockData` value, with the field order of the
object literal in `src/index.mjs` (JS objects serialize in insertion order). -/
def jsonStringify : BlockData → String
  | .str s => jsonStr s
  | .record r =>
      "\x7b\"senderPrivateKey\":" ++ jsonStr r.senderPrivateKey
        ++ ",\"recipientPublicKey\":" ++ jsonStr r.recipientPublicKey
        ++ ",\"encryptedMessage\":" ++ jsonStr r.encryptedMessage
        ++ ",\"signature\":" ++ jsonOptStr r.signature
        ++ ",\"decryptedMessage\":" ++ jsonStr r.decryptedMessage
        ++ "\x7d"

/-- A `Block` (lines 6-14 of `src/index.mjs`).  `previousHash` is `null` for
the genesis block, hence `Option String`. -/
structure Block where
  index : Nat
  previousHash : Option String
  timestamp : String
  data : BlockData
  hash : String
  deriving DecidableEq

/-- JS string coercion of the `previousHash` field (`null` prints as the
string `null` when concatenated). -/
def optHashStr : Option String → String
  | none => "null"
  | some s => s

/-- `calculateHash(index, previousHash, timestamp, data)` (lines 41-46):
the SHA-256 hex digest of `index + previousHash + timestamp +
JSON.stringify(data)`.  The digest itself is the external primitive `H`. -/
def calculateHash (H : String → String) (index : Nat) (previousHash : String)
    (timestamp : String) (data : BlockData) : String :=
  H (toString index ++ previousHash ++ timestamp ++ jsonStringify data)

/-- The chain state of a `Blockchain` object. -/
structure Blockchain where
  chain : List Block
  deriving DecidableEq

/-- `createGenesisBlock()` (lines 21-23): index 0, `null` previous hash, the
current time, the string `Genesis Block` as data, and the empty string as
hash.  The hash is NOT computed with `calculateHash`. -/
def Blockchain.createGenesisBlock (ts : String) : Block :=
  { index := 0, previousHash := none, timestamp := ts,
    data := .str ("Genesis Block"), hash := "" }

/-- The `Blockchain` constructor (lines 17-19): a chain holding only the
genesis block. -/
def Blockchain.new (ts : String) : Blockchain :=
  { chain := [Blockchain.createGenesisBlock ts] }

/-- Fallback block for `getLastBlock` on an empty chain (unreachable for any
chain the program builds: the constructor installs the genesis block). -/
def defaultBlock : Block :=
  { index := 0, previousHash := none, timestamp := "", data := .str (""), hash := "" }

/-- `getLastBlock()` (lines 25-27): `this.chain[this.chain.length - 1]`. -/
def Blockchain.getLastBlock (bc : Blockchain) : Block :=
  bc.chain.getLastD defaultBlock

/-- `addBlock(newBlock)` (lines 29-39): overwrite the new block's `index`,
`previousHash` and `hash` from the current last block, then push it.  The
hash is computed from the already-updated `index` and `previousHash`, so the
`previousHash` string fed to the digest is the last block's hash. -/
def Blockchain.addBlock (H : String → String) (bc : Blockchain) (newBlock : Block) :
    Blockchain :=
  { chain := bc.chain ++
      [{ index := bc.getLastBlock.index + 1,
         previousHash := some bc.getLastBlock.hash,
         timestamp := newBlock.timestamp,
         data := newBlock.data,
         hash := calculateHash H (bc.getLastBlock.index + 1) bc.getLastBlock.hash
           newBlock.timestamp newBlock.data }] }

/-- A chain reached from the constructor by a sequence of `addBlock` calls. -/
def buildChain (H : String → String) (ts : String) (inputs : List Block) : Blockchain :=
  inputs.foldl (Blockchain.addBlock H) (Blockchain.new ts)

/-! ### Chain-integrity checks -/

/-- One block's stored hash matches the digest recomputed from its own
fields. -/
def blockHashOk (H : String → String) (b : Block) : Bool :=
  b.hash == calculateHash H b.index (optHashStr b.previousHash) b.timestamp b.data

/-- A block points back at its predecessor's hash. -/
def linkOk (a b : Block) : Bool :=
  b.previousHash == some a.hash

/-- All adjacent-pair checks of a chain: for every block after the first,
recompute its hash and compare, and check the back link. -/
def chainChecks (H : String → String) : List Block → Bool
  | a :: b :: rest => (blockHashOk H b && linkOk a b) && chainChecks H (b :: rest)
  | _ => true

/-- Modelled from the spec: `src/index.mjs` contains no chain-validation
routine; section 4.3 of the spec describes `isChainValid()` — for every block
i ≥ 1, recompute its hash from its own fields and compare to the stored hash,
and confirm `block[i].previousHash == block[i-1].hash`. -/
def Blockchain.isChainValid (H : String → String) (bc : Blockchain) : Bool :=
  chainChecks H bc.chain

/-- In-place mutation of the payload of the block at position `i` (simulating
tampering).  Out-of-range indices leave the chain unchanged. -/
def tamperData (bc : Blockchain) (i : Nat) (d : BlockData) : Blockchain :=
  match bc.chain[i]? with
  | some b => { chain := bc.chain.set i { b with data := d } }
  | none => bc

/-- In-place mutation of the stored hash of the block at position `i`. -/
def tamperHash (bc : Blockchain) (i : Nat) (h : String) : Blockchain :=
  match bc.chain[i]? with
  | some b => { chain := bc.chain.set i { b with hash := h } }
  | none => bc

/-! ### The crypto-library boundary -/

/-- The slice of the Node `crypto` library (plus base64 rendering) that
`src/index.mjs` uses.  `publicEncrypt key msg` models
`crypto.publicEncrypt({key, OAEP, sha256}, msg)`; `privateDecrypt` its
inverse; `cryptoSign key data` models `crypto.sign(null, data, key)`;
`b64` models `Buffer.toString("base64")`; `sha256hex` the hex SHA-256
digest used by `calculateHash`. -/
structure CryptoLib where
  publicEncrypt : String → String → String
  privateDecrypt : String → String → String
  cryptoSign : String → String → String
  b64 : String → String
  sha256hex : String → String

/-- `maxMessageLength` (line 79). -/
def maxMessageLength : Nat := 190

/-- The value returned by `sendMessage` (lines 126-132). -/
structure SendResult where
  encryptedMessage : String
  signature : Option String
  decryptedMessage : String
  blockIndex : Nat
  blockHash : String
  deriving DecidableEq

/-- `sendMessage` (lines 71-133).  Returns the thrown error or the result,
paired with the (possibly extended) chain so that the claim about the chain
being left unchanged on failure is expressible. -/
def sendMessage (C : CryptoLib)
    (senderPrivateKey recipientPublicKey recipientPrivateKey message : String)
    (blockchain : Blockchain) (timestamp : String)
    (signMessageFunction : Option (String → String)) :
    Except String SendResult × Blockchain :=
  if message.utf8ByteSize > maxMessageLength then
    (Except.error ("Message is too long for RSA encryption"), blockchain)
  else
    let encryptedBuffer := C.publicEncrypt recipientPublicKey message
    let signature := signMessageFunction.map fun f => f encryptedBuffer
    let decryptedMessage := C.privateDecrypt recipientPrivateKey encryptedBuffer
    let newBlockData : NewBlockData :=
      { senderPrivateKey := senderPrivateKey,
        recipientPublicKey := recipientPublicKey,
        encryptedMessage := C.b64 encryptedBuffer,
        signature := signature.map C.b64,
        decryptedMessage := decryptedMessage }
    let newBlock : Block :=
      { index := 0, previousHash := none, timestamp := timestamp,
        data := .record newBlockData, hash := "" }
    let bc := blockchain.addBlock C.sha256hex newBlock
    (Except.ok
      { encryptedMessage := C.b64 encryptedBuffer,
        signature := signature,
        decryptedMessage := decryptedMessage,
        blockIndex := bc.getLastBlock.index,
        blockHash := bc.getLastBlock.hash }, bc)

/-- The `signMessageFunction` argument `main` passes to `sendMessage`
(line 253): sign with the sender's private key when the sign flag is set,
`null` otherwise. -/
def mainSignFunction (C : CryptoLib) (signFlag : Bool) (senderPrivateKey : String) :
    Option (String → String) :=
  if signFlag then some (fun data => C.cryptoSign senderPrivateKey data) else none

/-! ### Persistence of transactions and keys -/

/-- The record `saveTransaction` persists into `messages.json`
(lines 146-156). -/
structure Transaction where
  sender : String
  recipient : String
  encryptedMessage : String
  signature : Option String
  decryptedMessage : String
  timestamp : String
  blockIndex : Nat
  blockHash : String
  previousBlockHash : String
  deriving DecidableEq

/-- The transaction object built at lines 146-156 (the raw signature is
base64-rendered here; `null` stays `null`). -/
def mkTransaction (C : CryptoLib) (sender recipient encryptedMessage : String)
    (signature : Option String) (decryptedMessage timestamp : String)
    (blockIndex : Nat) (blockHash previousBlockHash : String) : Transaction :=
  { sender := sender, recipient := recipient,
    encryptedMessage := encryptedMessage,
    signature := signature.map C.b64,
    decryptedMessage := decryptedMessage, timestamp := timestamp,
    blockIndex := blockIndex, blockHash := blockHash,
    previousBlockHash := previousBlockHash }

/-- `saveTransaction` (lines 135-179) at the level of the parsed store: when
`messages.json` exists and parses, append to it and rewrite; otherwise write
a fresh single-element collection. -/
def saveTransaction (C : CryptoLib) (sender recipient encryptedMessage : String)
    (signature : Option String) (decryptedMessage timestamp : String)
    (blockIndex : Nat) (blockHash previousBlockHash : String)
    (store : Option (List Transaction)) : List Transaction :=
  let transaction := mkTransaction C sender recipient encryptedMessage signature
    decryptedMessage timestamp blockIndex blockHash previousBlockHash
  match store with
  | some allTransactions => allTransactions ++ [transaction]
  | none => [transaction]

/-- Compact `JSON.stringify` of a persisted transaction, with the insertion
field order of lines 146-156 (used to compare the persisted record with a
block payload as JS objects). -/
def jsonTransaction (t : Transaction) : String :=
  "\x7b\"sender\":" ++ jsonStr t.sender
    ++ ",\"recipient\":" ++ jsonStr t.recipient
    ++ ",\"encryptedMessage\":" ++ jsonStr t.encryptedMessage
    ++ ",\"signature\":" ++ jsonOptStr t.signature
    ++ ",\"decryptedMessage\":" ++ jsonStr t.decryptedMessage
    ++ ",\"timestamp\":" ++ jsonStr t.timestamp
    ++ ",\"blockIndex\":" ++ toString t.blockIndex
    ++ ",\"blockHash\":" ++ jsonStr t.blockHash
    ++ ",\"previousBlockHash\":" ++ jsonStr t.previousBlockHash
    ++ "\x7d"

/-- `saveKeyToFile(username, key, type)` (lines 57-69), modelled by the file
write it performs: the pair (path, contents). -/
def saveKeyToFile (username key type : String) : String × String :=
  ("./" ++ username ++ "/" ++ type ++ ".pem", key)

/-- The key files one iteration of `main` writes (lines 235-236): the
sender's PRIVATE key and the recipient's PUBLIC key, under the lowercased
names.  `senderPublicKey` and `recipientPrivateKey` are in scope in `main`
but are never saved. -/
def mainKeyWrites (sender recipient senderPublicKey senderPrivateKey
    recipientPublicKey recipientPrivateKey : String) : List (String × String) :=
  [saveKeyToFile (toLowerStr sender) senderPrivateKey ("privateKey"),
   saveKeyToFile (toLowerStr recipient) recipientPublicKey ("publicKey")]

/-- One iteration of `main`'s message pipeline after key generation
(lines 240-272): remember the last block, call `sendMessage` with the
sign-flag-dependent signing closure, then persist the transaction record
built from the result.  (`lastBlock ? lastBlock.hash : null` always takes the
`hash` branch: the chain is never empty.) -/
def processExchange (C : CryptoLib) (sender recipient : String) (signFlag : Bool)
    (message : String) (senderPrivateKey recipientPublicKey recipientPrivateKey : String)
    (blockchain : Blockchain) (blockTimestamp txTimestamp : String)
    (store : Option (List Transaction)) :
    Except String (SendResult × Blockchain × List Transaction) :=
  let senderUsername := toLowerStr sender
  let recipientUsername := toLowerStr recipient
  let lastBlock := blockchain.getLastBlock
  match sendMessage C senderPrivateKey recipientPublicKey recipientPrivateKey message
      blockchain blockTimestamp (mainSignFunction C signFlag senderPrivateKey) with
  | (Except.error e, _) => Except.error e
  | (Except.ok r, bc) =>
      Except.ok (r, bc,
        saveTransaction C senderUsername recipientUsername r.encryptedMessage
          r.signature r.decryptedMessage txTimestamp r.blockIndex r.blockHash
          lastBlock.hash store)

/-! ### Concrete instances used by witnesses and counterexamples -/

/-- A concrete injective stand-in for the hex SHA-256 digest, used to
evaluate the model on closed inputs. -/
def demoHash (s : String) : String := "#" ++ s

/-- A concrete crypto library for closed evaluations: encryption and base64
are the identity (so the OAEP round trip holds definitionally), signing tags
its input, the digest is `demoHash`. -/
def demoLib : CryptoLib :=
  { publicEncrypt := fun _ m => m,
    privateDecrypt := fun _ c => c,
    cryptoSign := fun k d => "SIG[" ++ k ++ "|" ++ d ++ "]",
    b64 := fun s => s,
    sha256hex := demoHash }

/-- A concrete block handed to `addBlock` (its index, previousHash and hash
are placeholders that `addBlock` overwrites, as in `sendMessage`). -/
def demoInput : Block :=
  { index := 0, previousHash := none, timestamp := "T1",
    data := .str ("hello"), hash := "" }

/-- The block `addBlock demoHash` actually appends for `demoInput` on a fresh
chain with genesis timestamp `T0`. -/
def demoAppended : Block :=
  { index := 1, previousHash := some "", timestamp := "T1",
    data := .str ("hello"), hash := "#1T1\"hello\"" }

/-- Discriminator for `Except` used in closed statements. -/
def exceptIsOk {ε α : Type} : Except ε α → Bool
  | Except.ok _ => true
  | Except.error _ => false

/-- A message whose UTF-8 encoding is 191 bytes long. -/
def longMsg : String := String.mk (List.replicate 191 'a')

/-- A concrete full run of one exchange. -/
def demoRun : Except String (SendResult × Blockchain × List Transaction) :=
  processExchange demoLib ("Alice") ("Bob") true ("hi") ("SPRIV") ("RPUB") ("RPRIV")
    (Blockchain.new ("T0")) ("T1") ("T2") none

/-- JSON of the payload of the block `demoRun` appends. -/
def demoBlockPayloadJson : String :=
  match demoRun with
  | Except.ok (_, bc, _) => jsonStringify bc.getLastBlock.data
  | Except.error _ => ""

/-- JSON of the record `demoRun` persists. -/
def demoPersistedJson : String :=
  match demoRun with
  | Except.ok (_, _, txs) =>
      match txs.getLast? with
      | some t => jsonTransaction t
      | none => ""
  | Except.error _ => ""

/-! ### Helper lemmas -/

theorem string_append_left_cancel {a b c : String} (h : a ++ b = a ++ c) : b = c := by
  apply String.ext
  have h2 := congrArg String.data h
  simp only [String.data_append] at h2
  exact List.append_cancel_left h2

theorem demoHash_injective : Function.Injective demoHash := by
  intro a b h
  exact string_append_left_cancel h

theorem blockHashOk_iff (H : String → String) (b : Block) :
    blockHashOk H b = true ↔
      b.hash = calculateHash H b.index (optHashStr b.previousHash) b.timestamp b.data := by
  simp [blockHashOk]

theorem linkOk_iff (a b : Block) :
    linkOk a b = true ↔ b.previousHash = some a.hash := by
  simp [linkOk]

/-- The adjacent-pair property `chainChecks` tests. -/
def chainR (H : String → String) (a b : Block) : Prop :=
  blockHashOk H b = true ∧ linkOk a b = true

theorem chainChecks_iff_chain' (H : String → String) :
    ∀ l : List Block, chainChecks H l = true ↔ List.Chain' (chainR H) l
  | [] => by simp [chainChecks]
  | [a] => by simp [chainChecks]
  | a :: b :: rest => by
      have ih := chainChecks_iff_chain' H (b :: rest)
      simp [chainChecks, List.chain'_cons, chainR, ih, and_assoc]

/-- Soundness invariant maintained by the constructor and `addBlock`. -/
def soundChain (H : String → String) (l : List Block) : Prop :=
  l ≠ [] ∧ List.Chain' (chainR H) l

theorem getLastBlock_of_getLast? {bc : Blockchain} {a : Block}
    (h : bc.chain.getLast? = some a) : bc.getLastBlock = a := by
  unfold Blockchain.getLastBlock
  rw [List.getLastD_eq_getLast?, h]
  rfl

theorem soundChain_addBlock (H : String → String) (bc : Blockchain) (nb : Block)
    (hs : soundChain H bc.chain) : soundChain H (bc.addBlock H nb).chain := by
  obtain ⟨hne, hch⟩ := hs
  obtain ⟨a, ha⟩ : ∃ a, bc.chain.getLast? = some a := by
    cases h : bc.chain.getLast? with
    | none => exact absurd (List.getLast?_eq_none_iff.mp h) hne
    | some a => exact ⟨a, rfl⟩
  have hlb : bc.getLastBlock = a := getLastBlock_of_getLast? ha
  refine ⟨by simp [Blockchain.addBlock], ?_⟩
  show List.Chain' (chainR H) (bc.chain ++ [_])
  apply List.Chain'.append hch (List.chain'_singleton _)
  intro x hx y hy
  rw [ha, Option.mem_some_iff] at hx
  simp only [List.head?_cons, Option.mem_some_iff] at hy
  subst hx
  subst hy
  constructor
  · rw [blockHashOk_iff, hlb]
    rfl
  · rw [linkOk_iff, hlb]

theorem soundChain_foldl (H : String → String) :
    ∀ (inputs : List Block) (bc : Blockchain), soundChain H bc.chain →
      soundChain H ((inputs.foldl (Blockchain.addBlock H) bc)).chain
  | [], _, h => h
  | nb :: rest, bc, h =>
      soundChain_foldl H rest (bc.addBlock H nb) (soundChain_addBlock H bc nb h)

theorem soundChain_buildChain (H : String → String) (ts : String) (inputs : List Block) :
    soundChain H (buildChain H ts inputs).chain :=
  soundChain_foldl H inputs (Blockchain.new ts)
    ⟨by simp [Blockchain.new], by exact List.chain'_singleton _⟩

theorem head?_foldl (H : String → String) :
    ∀ (inputs : List Block) (bc : Blockchain), bc.chain ≠ [] →
      (inputs.foldl (Blockchain.addBlock H) bc).chain.head? = bc.chain.head?
  | [], _, _ => rfl
  | nb :: rest, bc, h => by
      have h2 : (bc.addBlock H nb).chain ≠ [] := by simp [Blockchain.addBlock]
      have ih := head?_foldl H rest (bc.addBlock H nb) h2
      rw [List.foldl_cons, ih]
      show (bc.chain ++ [_]).head? = bc.chain.head?
      cases hc : bc.chain with
      | nil => exact absurd hc h
      | cons x t => rfl

theorem head?_buildChain (H : String → String) (ts : String) (inputs : List Block) :
    (buildChain H ts inputs).chain.head? = some (Blockchain.createGenesisBlock ts) := by
  have h := head?_foldl H inputs (Blockchain.new ts) (by simp [Blockchain.new])
  rw [buildChain, h]
  rfl

/-- Adjacent-pair facts extracted from a sound chain at explicit positions. -/
theorem soundChain_adjacent (H : String → String) {l : List Block}
    (hch : List.Chain' (chainR H) l) {i : Nat} {a b : Block}
    (ha : l[i]? = some a) (hb : l[i + 1]? = some b) : chainR H a b := by
  obtain ⟨hia, haeq⟩ := List.getElem?_eq_some_iff.mp ha
  obtain ⟨hib, hbeq⟩ := List.getElem?_eq_some_iff.mp hb
  have hR := List.chain'_iff_get.mp hch i (by omega)
  simp only [List.get_eq_getElem] at hR
  rw [haeq, hbeq] at hR
  exact hR

/-- The block data `sendMessage` wraps into the appended block. -/
def smBlockData (C : CryptoLib) (spk rpub rpriv message : String)
    (so : Option (String → String)) : NewBlockData :=
  { senderPrivateKey := spk,
    recipientPublicKey := rpub,
    encryptedMessage := C.b64 (C.publicEncrypt rpub message),
    signature := (so.map fun f => f (C.publicEncrypt rpub message)).map C.b64,
    decryptedMessage := C.privateDecrypt rpriv (C.publicEncrypt rpub message) }

/-- The block `sendMessage` hands to `addBlock` before its fields are
overwritten. -/
def smRawBlock (C : CryptoLib) (spk rpub rpriv message ts : String)
    (so : Option (String → String)) : Block :=
  { index := 0, previousHash := none, timestamp := ts,
    data := .record (smBlockData C spk rpub rpriv message so), hash := "" }

/-- Full characterization of `sendMessage` on a message within the length
bound. -/
theorem sendMessage_ok_eq (C : CryptoLib) (spk rpub rpriv message : String)
    (bc : Blockchain) (ts : String) (so : Option (String → String))
    (hlen : message.utf8ByteSize ≤ maxMessageLength) :
    sendMessage C spk rpub rpriv message bc ts so =
      (Except.ok
        { encryptedMessage := C.b64 (C.publicEncrypt rpub message),
          signature := so.map fun f => f (C.publicEncrypt rpub message),
          decryptedMessage := C.privateDecrypt rpriv (C.publicEncrypt rpub message),
          blockIndex := bc.getLastBlock.index + 1,
          blockHash := calculateHash C.sha256hex (bc.getLastBlock.index + 1)
            bc.getLastBlock.hash ts (.record (smBlockData C spk rpub rpriv message so)) },
       bc.addBlock C.sha256hex (smRawBlock C spk rpub rpriv message ts so)) := by
  unfold sendMessage
  rw [if_neg (by omega)]
  simp [Blockchain.addBlock, Blockchain.getLastBlock, List.getLastD_concat,
    smBlockData, smRawBlock]

/-- The `SendResult` produced by a successful `sendMessage`. -/
def smResult (C : CryptoLib) (spk rpub rpriv message : String) (bc : Blockchain)
    (ts : String) (so : Option (String → String)) : SendResult :=
  { encryptedMessage := C.b64 (C.publicEncrypt rpub message),
    signature := so.map fun f => f (C.publicEncrypt rpub message),
    decryptedMessage := C.privateDecrypt rpriv (C.publicEncrypt rpub message),
    blockIndex := bc.getLastBlock.index + 1,
    blockHash := calculateHash C.sha256hex (bc.getLastBlock.index + 1)
      bc.getLastBlock.hash ts (.record (smBlockData C spk rpub rpriv message so)) }

/-- Full characterization of one `main` iteration on a message within the
length bound. -/
theorem processExchange_ok_eq (C : CryptoLib) (sender recipient : String)
    (signFlag : Bool) (message spk rpub rpriv : String) (bc : Blockchain)
    (ts1 ts2 : String) (store : Option (List Transaction))
    (hlen : message.utf8ByteSize ≤ maxMessageLength) :
    processExchange C sender recipient signFlag message spk rpub rpriv bc ts1 ts2 store =
      Except.ok
        (smResult C spk rpub rpriv message bc ts1 (mainSignFunction C signFlag spk),
         bc.addBlock C.sha256hex
           (smRawBlock C spk rpub rpriv message ts1 (mainSignFunction C signFlag spk)),
         saveTransaction C (toLowerStr sender) (toLowerStr recipient)
           (smResult C spk rpub rpriv message bc ts1 (mainSignFunction C signFlag spk)).encryptedMessage
           (smResult C spk rpub rpriv message bc ts1 (mainSignFunction C signFlag spk)).signature
           (smResult C spk rpub rpriv message bc ts1 (mainSignFunction C signFlag spk)).decryptedMessage
           ts2
           (smResult C spk rpub rpriv message bc ts1 (mainSignFunction C signFlag spk)).blockIndex
           (smResult C spk rpub rpriv message bc ts1 (mainSignFunction C signFlag spk)).blockHash
           bc.getLastBlock.hash store) := by
  unfold processExchange
  rw [sendMessage_ok_eq C spk rpub rpriv message bc ts1
    (mainSignFunction C signFlag spk) hlen]
  rfl

/-! ### C1 -/

/-- C1: for every message whose UTF-8 encoding is at most 190 bytes and every
matching RSA-2048 key pair (formalized as the hypothesis that OAEP-SHA256
decryption under the recipient's private key inverts OAEP-SHA256 encryption
under the recipient's public key on all such messages), `sendMessage`
succeeds and the `decryptedMessage` it returns equals the original
message. -/
theorem sendMessage_roundtrip (C : CryptoLib) (spk rpub rpriv message : String)
    (bc : Blockchain) (ts : String) (so : Option (String → String))
    (hlen : message.utf8ByteSize ≤ maxMessageLength)
    (hround : ∀ m : String, m.utf8ByteSize ≤ maxMessageLength →
      C.privateDecrypt rpriv (C.publicEncrypt rpub m) = m) :
    ∃ r : SendResult, (sendMessage C spk rpub rpriv message bc ts so).1 = Except.ok r
      ∧ r.decryptedMessage = message := by
  rw [sendMessage_ok_eq C spk rpub rpriv message bc ts so hlen]
  exact ⟨_, rfl, hround message hlen⟩

/-- Witness for C1 at a concrete input. -/
theorem sendMessage_roundtrip_witness :
    ("hi" : String).utf8ByteSize ≤ maxMessageLength ∧
    (∀ m : String, m.utf8ByteSize ≤ maxMessageLength →
      demoLib.privateDecrypt ("RPRIV") (demoLib.publicEncrypt ("RPUB") m) = m) ∧
    ∃ r : SendResult,
      (sendMessage demoLib ("SPRIV") ("RPUB") ("RPRIV") ("hi") (Blockchain.new ("T0"))
        ("T1") none).1 = Except.ok r ∧ r.decryptedMessage = "hi" :=
  ⟨by decide, fun _ _ => rfl,
    sendMessage_roundtrip demoLib ("SPRIV") ("RPUB") ("RPRIV") ("hi")
      (Blockchain.new ("T0")) ("T1") none (by decide) (fun _ _ => rfl)⟩

/-! ### C2 -/

/-- C2: for every message whose UTF-8 encoding exceeds 190 bytes,
`sendMessage` throws `Message is too long for RSA encryption` and leaves the
chain unchanged.  The crypto library `C` is universally quantified and absent
from the right-hand side, so no encryption (and no block append) can have
been attempted. -/
theorem sendMessage_too_long (C : CryptoLib) (spk rpub rpriv message : String)
    (bc : Blockchain) (ts : String) (so : Option (String → String))
    (hlen : message.utf8ByteSize > maxMessageLength) :
    sendMessage C spk rpub rpriv message bc ts so =
      (Except.error ("Message is too long for RSA encryption"), bc) := by
  unfold sendMessage
  rw [if_pos hlen]

set_option maxRecDepth 4000 in
/-- Witness for C2 at a concrete 191-byte message. -/
theorem sendMessage_too_long_witness :
    longMsg.utf8ByteSize > maxMessageLength ∧
    sendMessage demoLib ("SPRIV") ("RPUB") ("RPRIV") longMsg (Blockchain.new ("T0"))
      ("T1") none =
      (Except.error ("Message is too long for RSA encryption"), Blockchain.new ("T0")) :=
  ⟨by decide,
    sendMessage_too_long demoLib ("SPRIV") ("RPUB") ("RPRIV") longMsg
      (Blockchain.new ("T0")) ("T1") none (by decide)⟩

/-! ### C3 -/

/-- C3: on any chain state with a last block, `addBlock` appends exactly one
block whose index is the previous last block's index plus one, whose
`previousHash` is the previous last block's hash, and whose hash is the
digest of its index, previousHash, timestamp and serialized payload; every
block already in the chain is left unchanged. -/
theorem addBlock_appends (H : String → String) (bc : Blockchain) (nb last : Block)
    (h : bc.chain.getLast? = some last) :
    (bc.addBlock H nb).chain = bc.chain ++
      [{ index := last.index + 1, previousHash := some last.hash,
         timestamp := nb.timestamp, data := nb.data,
         hash := calculateHash H (last.index + 1) last.hash nb.timestamp nb.data }]
    ∧ (bc.addBlock H nb).chain.length = bc.chain.length + 1
    ∧ (bc.addBlock H nb).chain.take bc.chain.length = bc.chain := by
  have hlb : bc.getLastBlock = last := getLastBlock_of_getLast? h
  refine ⟨by simp [Blockchain.addBlock, hlb], by simp [Blockchain.addBlock], ?_⟩
  show (bc.chain ++ [_]).take bc.chain.length = bc.chain
  exact List.take_left bc.chain _

/-- Witness for C3: appending `demoInput` to a fresh chain. -/
theorem addBlock_appends_witness :
    (Blockchain.new ("T0")).chain.getLast? = some (Blockchain.createGenesisBlock ("T0")) ∧
    ((Blockchain.new ("T0")).addBlock demoHash demoInput).chain =
      (Blockchain.new ("T0")).chain ++
        [{ index := (Blockchain.createGenesisBlock ("T0")).index + 1,
           previousHash := some (Blockchain.createGenesisBlock ("T0")).hash,
           timestamp := demoInput.timestamp, data := demoInput.data,
           hash := calculateHash demoHash ((Blockchain.createGenesisBlock ("T0")).index + 1)
             (Blockchain.createGenesisBlock ("T0")).hash demoInput.timestamp demoInput.data }]
    ∧ ((Blockchain.new ("T0")).addBlock demoHash demoInput).chain.length =
        (Blockchain.new ("T0")).chain.length + 1
    ∧ ((Blockchain.new ("T0")).addBlock demoHash demoInput).chain.take
        (Blockchain.new ("T0")).chain.length = (Blockchain.new ("T0")).chain :=
  ⟨by decide,
    addBlock_appends demoHash (Blockchain.new ("T0")) demoInput
      (Blockchain.createGenesisBlock ("T0")) (by decide)⟩

/-! ### C4 -/

/-- Counterexample for C4 as stated: on a freshly constructed chain the
genesis block's stored hash is the empty string, which is not the digest of
its fields (`calculateHash` always prefixes the digest marker under the
concrete digest `demoHash`, and a real SHA-256 hex digest is likewise never
empty), so the hash invariant fails at the genesis block. -/
theorem genesis_hash_not_computed :
    (Blockchain.new ("T0")).getLastBlock.hash = "" ∧
    (Blockchain.new ("T0")).getLastBlock.hash ≠
      calculateHash demoHash (Blockchain.new ("T0")).getLastBlock.index
        (optHashStr (Blockchain.new ("T0")).getLastBlock.previousHash)
        (Blockchain.new ("T0")).getLastBlock.timestamp
        (Blockchain.new ("T0")).getLastBlock.data := by
  exact ⟨rfl, by decide⟩

/-- C4 amended: for every chain built by the constructor and any sequence of
`addBlock` calls, every block with a predecessor satisfies
`hash == H(index, previousHash, timestamp, payload)` and
`block[i].previousHash == block[i-1].hash`; the genesis block sits at the
head with hash equal to the empty-string sentinel, not a computed digest. -/
theorem built_chain_invariants (H : String → String) (ts : String) (inputs : List Block) :
    (buildChain H ts inputs).chain.head? = some (Blockchain.createGenesisBlock ts)
    ∧ (Blockchain.createGenesisBlock ts).hash = ""
    ∧ ∀ i a b, (buildChain H ts inputs).chain[i]? = some a →
        (buildChain H ts inputs).chain[i + 1]? = some b →
        b.hash = calculateHash H b.index (optHashStr b.previousHash) b.timestamp b.data
        ∧ b.previousHash = some a.hash := by
  refine ⟨head?_buildChain H ts inputs, rfl, ?_⟩
  obtain ⟨hne, hch⟩ := soundChain_buildChain H ts inputs
  intro i a b ha hb
  obtain ⟨h1, h2⟩ := soundChain_adjacent H hch ha hb
  exact ⟨(blockHashOk_iff H b).mp h1, (linkOk_iff a b).mp h2⟩

/-- Witness for C4's amended invariant on a concrete two-block chain. -/
theorem built_chain_invariants_witness :
    (buildChain demoHash ("T0") [demoInput]).chain[0]? =
        some (Blockchain.createGenesisBlock ("T0"))
    ∧ (buildChain demoHash ("T0") [demoInput]).chain[1]? = some demoAppended
    ∧ (buildChain demoHash ("T0") [demoInput]).chain.head? =
        some (Blockchain.createGenesisBlock ("T0"))
    ∧ demoAppended.hash = calculateHash demoHash demoAppended.index
        (optHashStr demoAppended.previousHash) demoAppended.timestamp demoAppended.data
    ∧ demoAppended.previousHash = some (Blockchain.createGenesisBlock ("T0")).hash := by
  have h := built_chain_invariants demoHash ("T0") [demoInput]
  have h2 := h.2.2 0 (Blockchain.createGenesisBlock ("T0")) demoAppended
    (by decide) (by decide)
  exact ⟨by decide, by decide, h.1, h2.1, h2.2⟩

/-! ### C5 -/

/-- Counterexample for C5 as stated: `isChainValid` only examines blocks with
index at least 1, so mutating the genesis block's payload in place (a genuine
change of the stored chain) still yields `true`. -/
theorem isChainValid_misses_genesis_tamper :
    Blockchain.isChainValid demoHash
      (tamperData (buildChain demoHash ("T0") [demoInput]) 0 (BlockData.str ("evil"))) = true
    ∧ (tamperData (buildChain demoHash ("T0") [demoInput]) 0
        (BlockData.str ("evil"))).chain ≠ (buildChain demoHash ("T0") [demoInput]).chain := by
  exact ⟨by decide, by decide⟩

/-- C5 amended (isChainValid modelled from the spec, the digest hypothesized
collision-free): `isChainValid` is true on a freshly constructed chain and on
any chain built by `addBlock` appends; mutating the payload of any block with
index ≥ 1 (to one with a different serialization) or its stored hash (to a
different string) makes it false; genesis-block payload mutations are not
detected (see the counterexample). -/
theorem isChainValid_behaviour (H : String → String) (hH : Function.Injective H)
    (ts : String) (inputs : List Block) :
    Blockchain.isChainValid H (Blockchain.new ts) = true
    ∧ Blockchain.isChainValid H (buildChain H ts inputs) = true
    ∧ (∀ i d b, 1 ≤ i → (buildChain H ts inputs).chain[i]? = some b →
        jsonStringify d ≠ jsonStringify b.data →
        Blockchain.isChainValid H (tamperData (buildChain H ts inputs) i d) = false)
    ∧ (∀ i h b, 1 ≤ i → (buildChain H ts inputs).chain[i]? = some b →
        h ≠ b.hash →
        Blockchain.isChainValid H (tamperHash (buildChain H ts inputs) i h) = false) := by
  obtain ⟨hne, hch⟩ := soundChain_buildChain H ts inputs
  refine ⟨rfl, (chainChecks_iff_chain' H _).mpr hch, ?_, ?_⟩
  · intro i d b hi hb hd
    obtain ⟨j, rfl⟩ : ∃ j, i = j + 1 := ⟨i - 1, by omega⟩
    obtain ⟨hib, hbeq⟩ := List.getElem?_eq_some_iff.mp hb
    have htd : (tamperData (buildChain H ts inputs) (j + 1) d).chain =
        (buildChain H ts inputs).chain.set (j + 1) { b with data := d } := by
      simp only [tamperData, hb]
    cases hval : Blockchain.isChainValid H (tamperData (buildChain H ts inputs) (j + 1) d) with
    | false => rfl
    | true =>
      exfalso
      unfold Blockchain.isChainValid at hval
      rw [htd] at hval
      have hch2 := (chainChecks_iff_chain' H _).mp hval
      have hb2 : ((buildChain H ts inputs).chain.set (j + 1) { b with data := d })[j + 1]? =
          some { b with data := d } := by
        rw [List.getElem?_set_self]
        exact hib
      obtain ⟨a2, ha2⟩ : ∃ a2,
          ((buildChain H ts inputs).chain.set (j + 1) { b with data := d })[j]? = some a2 := by
        have : j < ((buildChain H ts inputs).chain.set (j + 1) { b with data := d }).length := by
          rw [List.length_set]; omega
        exact ⟨_, List.getElem?_eq_getElem this⟩
      have hpair2 := soundChain_adjacent H hch2 ha2 hb2
      have hhash2 := (blockHashOk_iff H _).mp hpair2.1
      obtain ⟨a1, ha1⟩ : ∃ a1, (buildChain H ts inputs).chain[j]? = some a1 := by
        have : j < (buildChain H ts inputs).chain.length := by omega
        exact ⟨_, List.getElem?_eq_getElem this⟩
      have hpair1 := soundChain_adjacent H hch ha1 hb
      have hhash1 := (blockHashOk_iff H b).mp hpair1.1
      have heq : calculateHash H b.index (optHashStr b.previousHash) b.timestamp d =
          calculateHash H b.index (optHashStr b.previousHash) b.timestamp b.data :=
        hhash2.symm.trans hhash1
      unfold calculateHash at heq
      exact hd (string_append_left_cancel (hH heq))
  · intro i h b hi hb hne2
    obtain ⟨j, rfl⟩ : ∃ j, i = j + 1 := ⟨i - 1, by omega⟩
    obtain ⟨hib, hbeq⟩ := List.getElem?_eq_some_iff.mp hb
    have htd : (tamperHash (buildChain H ts inputs) (j + 1) h).chain =
        (buildChain H ts inputs).chain.set (j + 1) { b with hash := h } := by
      simp only [tamperHash, hb]
    cases hval : Blockchain.isChainValid H (tamperHash (buildChain H ts inputs) (j + 1) h) with
    | false => rfl
    | true =>
      exfalso
      unfold Blockchain.isChainValid at hval
      rw [htd] at hval
      have hch2 := (chainChecks_iff_chain' H _).mp hval
      have hb2 : ((buildChain H ts inputs).chain.set (j + 1) { b with hash := h })[j + 1]? =
          some { b with hash := h } := by
        rw [List.getElem?_set_self]
        exact hib
      obtain ⟨a2, ha2⟩ : ∃ a2,
          ((buildChain H ts inputs).chain.set (j + 1) { b with hash := h })[j]? = some a2 := by
        have : j < ((buildChain H ts inputs).chain.set (j + 1) { b with hash := h }).length := by
          rw [List.length_set]; omega
        exact ⟨_, List.getElem?_eq_getElem this⟩
      have hpair2 := soundChain_adjacent H hch2 ha2 hb2
      have hhash2 := (blockHashOk_iff H _).mp hpair2.1
      obtain ⟨a1, ha1⟩ : ∃ a1, (buildChain H ts inputs).chain[j]? = some a1 := by
        have : j < (buildChain H ts inputs).chain.length := by omega
        exact ⟨_, List.getElem?_eq_getElem this⟩
      have hpair1 := soundChain_adjacent H hch ha1 hb
      have hhash1 := (blockHashOk_iff H b).mp hpair1.1
      exact hne2 (hhash2.trans hhash1.symm)

/-- Witness for C5's amended behaviour on a concrete two-block chain. -/
theorem isChainValid_behaviour_witness :
    Blockchain.isChainValid demoHash (buildChain demoHash ("T0") [demoInput]) = true
    ∧ Blockchain.isChainValid demoHash
        (tamperData (buildChain demoHash ("T0") [demoInput]) 1 (BlockData.str ("evil"))) = false
    ∧ Blockchain.isChainValid demoHash
        (tamperHash (buildChain demoHash ("T0") [demoInput]) 1 ("bogus")) = false := by
  have h := isChainValid_behaviour demoHash demoHash_injective ("T0") [demoInput]
  exact ⟨h.2.1,
    h.2.2.1 1 (BlockData.str ("evil")) demoAppended (by decide) (by decide) (by decide),
    h.2.2.2 1 ("bogus") demoAppended (by decide) (by decide) (by decide)⟩

/-! ### C6 -/

/-- C6: on a successful `sendMessage` with the signing closure `main` builds,
the signature is the sender's-private-key signature of the ciphertext (the
encryption of the message, not the message), and the signature field of the
result and of the stored block data is `null` exactly when the sign flag was
declined (the closure argument is `null`). -/
theorem signature_over_ciphertext (C : CryptoLib) (spk rpub rpriv message : String)
    (bc : Blockchain) (ts : String) (sf : Bool)
    (hlen : message.utf8ByteSize ≤ maxMessageLength) :
    ∃ (r : SendResult) (bc2 : Blockchain),
      sendMessage C spk rpub rpriv message bc ts (mainSignFunction C sf spk) =
        (Except.ok r, bc2)
      ∧ r.signature =
          (if sf then some (C.cryptoSign spk (C.publicEncrypt rpub message)) else none)
      ∧ (r.signature = none ↔ sf = false)
      ∧ bc2.getLastBlock.data = BlockData.record
          { senderPrivateKey := spk, recipientPublicKey := rpub,
            encryptedMessage := C.b64 (C.publicEncrypt rpub message),
            signature :=
              if sf then some (C.b64 (C.cryptoSign spk (C.publicEncrypt rpub message)))
              else none,
            decryptedMessage := C.privateDecrypt rpriv (C.publicEncrypt rpub message) } := by
  rw [sendMessage_ok_eq C spk rpub rpriv message bc ts (mainSignFunction C sf spk) hlen]
  refine ⟨_, _, rfl, ?_, ?_, ?_⟩
  · cases sf <;> simp [mainSignFunction]
  · cases sf <;> simp [mainSignFunction]
  · cases sf <;>
      simp [mainSignFunction, Blockchain.addBlock, Blockchain.getLastBlock,
        List.getLastD_concat, smRawBlock, smBlockData]

/-- Witness for C6 with the sign flag set, at a concrete input. -/
theorem signature_over_ciphertext_witness :
    ("hi" : String).utf8ByteSize ≤ maxMessageLength ∧
    ∃ (r : SendResult) (bc2 : Blockchain),
      sendMessage demoLib ("SPRIV") ("RPUB") ("RPRIV") ("hi") (Blockchain.new ("T0"))
          ("T1") (mainSignFunction demoLib true ("SPRIV")) = (Except.ok r, bc2)
      ∧ r.signature =
          (if true then
            some (demoLib.cryptoSign ("SPRIV") (demoLib.publicEncrypt ("RPUB") ("hi")))
          else none)
      ∧ (r.signature = none ↔ true = false)
      ∧ bc2.getLastBlock.data = BlockData.record
          { senderPrivateKey := "SPRIV", recipientPublicKey := "RPUB",
            encryptedMessage := demoLib.b64 (demoLib.publicEncrypt ("RPUB") ("hi")),
            signature :=
              if true then
                some (demoLib.b64
                  (demoLib.cryptoSign ("SPRIV") (demoLib.publicEncrypt ("RPUB") ("hi"))))
              else none,
            decryptedMessage :=
              demoLib.privateDecrypt ("RPRIV") (demoLib.publicEncrypt ("RPUB") ("hi")) } :=
  ⟨by decide,
    signature_over_ciphertext demoLib ("SPRIV") ("RPUB") ("RPRIV") ("hi")
      (Blockchain.new ("T0")) ("T1") true (by decide)⟩

/-! ### C7 -/

set_option maxRecDepth 10000 in
/-- Counterexample for C7 as stated: in a concrete successful exchange the
payload stored in the appended block and the record handed to the persistence
sink are different JS objects — their (insertion-order) JSON serializations
differ.  The block payload carries the key material and no names or
timestamp; the persisted record carries names, timestamp and block
references. -/
theorem block_payload_differs_from_persisted :
    exceptIsOk demoRun = true ∧ demoBlockPayloadJson ≠ demoPersistedJson := by
  exact ⟨by decide, by decide⟩

/-- C7 amended: the block payload and the persisted record of one exchange
agree on `encryptedMessage` (base64), `signature` (base64 or null) and
`decryptedMessage`, but they are distinct records: the block payload
additionally carries the sender's private key and the recipient's public key
(and no timestamp), while the persisted record carries the lowercased names,
the timestamp and the block references. -/
theorem block_payload_vs_persisted (C : CryptoLib) (sender recipient : String)
    (sf : Bool) (message spk rpub rpriv : String) (bc : Blockchain)
    (ts1 ts2 : String) (store : Option (List Transaction))
    (hlen : message.utf8ByteSize ≤ maxMessageLength) :
    ∃ (r : SendResult) (bc2 : Blockchain) (txs : List Transaction)
      (nbd : NewBlockData) (tx : Transaction),
      processExchange C sender recipient sf message spk rpub rpriv bc ts1 ts2 store =
        Except.ok (r, bc2, txs)
      ∧ bc2.getLastBlock.data = BlockData.record nbd
      ∧ txs.getLast? = some tx
      ∧ nbd.encryptedMessage = tx.encryptedMessage
      ∧ nbd.signature = tx.signature
      ∧ nbd.decryptedMessage = tx.decryptedMessage
      ∧ nbd.senderPrivateKey = spk
      ∧ nbd.recipientPublicKey = rpub
      ∧ tx.sender = toLowerStr sender
      ∧ tx.recipient = toLowerStr recipient
      ∧ tx.timestamp = ts2 := by
  rw [processExchange_ok_eq C sender recipient sf message spk rpub rpriv bc ts1 ts2
    store hlen]
  refine ⟨_, _, _, smBlockData C spk rpub rpriv message (mainSignFunction C sf spk),
    mkTransaction C (toLowerStr sender) (toLowerStr recipient)
      (smResult C spk rpub rpriv message bc ts1 (mainSignFunction C sf spk)).encryptedMessage
      (smResult C spk rpub rpriv message bc ts1 (mainSignFunction C sf spk)).signature
      (smResult C spk rpub rpriv message bc ts1 (mainSignFunction C sf spk)).decryptedMessage
      ts2
      (smResult C spk rpub rpriv message bc ts1 (mainSignFunction C sf spk)).blockIndex
      (smResult C spk rpub rpriv message bc ts1 (mainSignFunction C sf spk)).blockHash
      bc.getLastBlock.hash,
    rfl, ?_, ?_, rfl, rfl, rfl, rfl, rfl, rfl, rfl, rfl⟩
  · simp [Blockchain.addBlock, Blockchain.getLastBlock, List.getLastD_concat, smRawBlock]
  · cases store <;> simp [saveTransaction, List.getLast?_concat]

/-- Witness for C7's amended statement at a concrete input. -/
theorem block_payload_vs_persisted_witness :
    ("hi" : String).utf8ByteSize ≤ maxMessageLength ∧
    ∃ (r : SendResult) (bc2 : Blockchain) (txs : List Transaction)
      (nbd : NewBlockData) (tx : Transaction),
      processExchange demoLib ("Alice") ("Bob") true ("hi") ("SPRIV") ("RPUB") ("RPRIV")
          (Blockchain.new ("T0")) ("T1") ("T2") none = Except.ok (r, bc2, txs)
      ∧ bc2.getLastBlock.data = BlockData.record nbd
      ∧ txs.getLast? = some tx
      ∧ nbd.encryptedMessage = tx.encryptedMessage
      ∧ nbd.signature = tx.signature
      ∧ nbd.decryptedMessage = tx.decryptedMessage
      ∧ nbd.senderPrivateKey = "SPRIV"
      ∧ nbd.recipientPublicKey = "RPUB"
      ∧ tx.sender = toLowerStr ("Alice")
      ∧ tx.recipient = toLowerStr ("Bob")
      ∧ tx.timestamp = "T2" :=
  ⟨by decide,
    block_payload_vs_persisted demoLib ("Alice") ("Bob") true ("hi") ("SPRIV") ("RPUB")
      ("RPRIV") (Blockchain.new ("T0")) ("T1") ("T2") none (by decide)⟩

/-! ### C8 -/

/-- C8: when no record document exists, `saveTransaction` creates the
collection holding exactly the one new record; otherwise it appends the new
record at the end of the existing collection and rewrites the whole document,
leaving every previously stored record unchanged (the stored prefix is
preserved verbatim). -/
theorem saveTransaction_appends (C : CryptoLib) (sender recipient em : String)
    (sig : Option String) (dm ts : String) (bi : Nat) (bh pbh : String)
    (l : List Transaction) :
    saveTransaction C sender recipient em sig dm ts bi bh pbh none =
      [mkTransaction C sender recipient em sig dm ts bi bh pbh]
    ∧ saveTransaction C sender recipient em sig dm ts bi bh pbh (some l) =
        l ++ [mkTransaction C sender recipient em sig dm ts bi bh pbh]
    ∧ (saveTransaction C sender recipient em sig dm ts bi bh pbh (some l)).take l.length
        = l := by
  refine ⟨rfl, rfl, ?_⟩
  show (l ++ [_]).take l.length = l
  exact List.take_left l _

/-! ### C9 -/

/-- Counterexample for C9 as stated: in a concrete exchange `main` performs
exactly two key writes — the sender's PRIVATE key and the recipient's PUBLIC
key — so the sender's public-key artifact (and the recipient's private-key
artifact) is never written, contradicting the claim that both halves of each
participant's key pair are persisted. -/
theorem key_writes_missing_halves :
    mainKeyWrites ("Alice") ("Bob") ("SPUB") ("SPRIV") ("RPUB") ("RPRIV") =
      [("./alice/privateKey.pem", "SPRIV"), ("./bob/publicKey.pem", "RPUB")]
    ∧ ¬ (("./alice/publicKey.pem", "SPUB") ∈
          mainKeyWrites ("Alice") ("Bob") ("SPUB") ("SPRIV") ("RPUB") ("RPRIV"))
    ∧ ¬ (("./bob/privateKey.pem", "RPRIV") ∈
          mainKeyWrites ("Alice") ("Bob") ("SPUB") ("SPRIV") ("RPUB") ("RPRIV")) := by
  exact ⟨by decide, by decide, by decide⟩

/-- C9 amended: per exchange, the key provider writes exactly two PEM
artifacts, each under the storage location named by the lowercased
participant name — the sender's private key as `privateKey.pem` and the
recipient's public key as `publicKey.pem`; the other two key halves are not
persisted. -/
theorem key_writes_exact (sender recipient spub spriv rpub rpriv : String) :
    mainKeyWrites sender recipient spub spriv rpub rpriv =
      [("./" ++ toLowerStr sender ++ "/" ++ "privateKey" ++ ".pem", spriv),
       ("./" ++ toLowerStr recipient ++ "/" ++ "publicKey" ++ ".pem", rpub)] := rfl

/-! ### C10 -/

/-- C10: on every successful exchange the data stored inside the appended
block is exactly the record holding the sender's private key PEM verbatim and
the recipient's public key PEM verbatim (plus ciphertext, optional signature
and decrypted message), and it does not depend on the sender's or recipient's
name: running the same exchange under any other pair of names stores the
identical block data. -/
theorem block_data_holds_keys_not_names (C : CryptoLib) (sender recipient : String)
    (sf : Bool) (message spk rpub rpriv : String) (bc : Blockchain)
    (ts1 ts2 : String) (store : Option (List Transaction))
    (hlen : message.utf8ByteSize ≤ maxMessageLength) :
    ∃ (r : SendResult) (bc2 : Blockchain) (txs : List Transaction),
      processExchange C sender recipient sf message spk rpub rpriv bc ts1 ts2 store =
        Except.ok (r, bc2, txs)
      ∧ (∃ sig : Option String, bc2.getLastBlock.data = BlockData.record
          { senderPrivateKey := spk, recipientPublicKey := rpub,
            encryptedMessage := C.b64 (C.publicEncrypt rpub message),
            signature := sig,
            decryptedMessage := C.privateDecrypt rpriv (C.publicEncrypt rpub message) })
      ∧ (∀ sender2 recipient2 : String,
          ∃ (r2 : SendResult) (bc3 : Blockchain) (txs2 : List Transaction),
            processExchange C sender2 recipient2 sf message spk rpub rpriv bc ts1 ts2
                store = Except.ok (r2, bc3, txs2)
            ∧ bc3.getLastBlock.data = bc2.getLastBlock.data) := by
  rw [processExchange_ok_eq C sender recipient sf message spk rpub rpriv bc ts1 ts2
    store hlen]
  refine ⟨_, _, _, rfl, ?_, ?_⟩
  · refine ⟨(smBlockData C spk rpub rpriv message (mainSignFunction C sf spk)).signature, ?_⟩
    simp [Blockchain.addBlock, Blockchain.getLastBlock, List.getLastD_concat,
      smRawBlock, smBlockData]
  · intro sender2 recipient2
    rw [processExchange_ok_eq C sender2 recipient2 sf message spk rpub rpriv bc ts1 ts2
      store hlen]
    exact ⟨_, _, _, rfl, rfl⟩

/-- Witness for C10 at a concrete input. -/
theorem block_data_holds_keys_not_names_witness :
    ("hi" : String).utf8ByteSize ≤ maxMessageLength ∧
    ∃ (r : SendResult) (bc2 : Blockchain) (txs : List Transaction),
      processExchange demoLib ("Alice") ("Bob") true ("hi") ("SPRIV") ("RPUB") ("RPRIV")
          (Blockchain.new ("T0")) ("T1") ("T2") none = Except.ok (r, bc2, txs)
      ∧ (∃ sig : Option String, bc2.getLastBlock.data = BlockData.record
          { senderPrivateKey := "SPRIV", recipientPublicKey := "RPUB",
            encryptedMessage := demoLib.b64 (demoLib.publicEncrypt ("RPUB") ("hi")),
            signature := sig,
            decryptedMessage :=
              demoLib.privateDecrypt ("RPRIV") (demoLib.publicEncrypt ("RPUB") ("hi")) })
      ∧ (∀ sender2 recipient2 : String,
          ∃ (r2 : SendResult) (bc3 : Blockchain) (txs2 : List Transaction),
            processExchange demoLib sender2 recipient2 true ("hi") ("SPRIV") ("RPUB")
                ("RPRIV") (Blockchain.new ("T0")) ("T1") ("T2") none =
              Except.ok (r2, bc3, txs2)
            ∧ bc3.getLastBlock.data = bc2.getLastBlock.data) :=
  ⟨by decide,
    block_data_holds_keys_not_names demoLib ("Alice") ("Bob") true ("hi") ("SPRIV")
      ("RPUB") ("RPRIV") (Blockchain.new ("T0")) ("T1") ("T2") none (by decide)⟩
